import Mathlib

/-!
Verification of the voice transcription app (SawyerHood/voice) against its
natural-language specification.  The TypeScript utility modules
(`src/settingsUtils.ts`, `src/overlayUtils.ts`, `src/App.tsx`) are embedded
shallowly below; JS strings become `List Char`, JS numbers become `ℚ`
extended with the non-finite values `nan`, `posInf`, `negInf` where the code
branches on finiteness.  The Rust core (`src-tauri`) is not part of the
source tree; the parts of it that claims depend on are modelled from the
spec and are marked as such in their doc comments.
-/

/-- JS numbers, as far as the embedded code observes them: a finite value
(modelled exactly as a rational, since none of the embedded code depends on
binary floating-point rounding) or one of the non-finite values that
`Number.isFinite` rejects. -/
inductive JsNum where
  | num (q : ℚ)
  | nan
  | posInf
  | negInf
deriving DecidableEq

/-- ASCII whitespace recognised by JS `String.prototype.trim` (the embedded
strings never contain the exotic Unicode space characters that `trim` also
strips). -/
def isJsWhitespace (c : Char) : Bool :=
  c == ' ' || c == '\t' || c == '\n' || c == '\r' || c == '\x0b' || c == '\x0c'

/-- JS `String.prototype.trim`: drop whitespace from both ends. -/
def jsTrim (s : List Char) : List Char :=
  ((s.dropWhile isJsWhitespace).reverse.dropWhile isJsWhitespace).reverse

/- ===== src/settingsUtils.ts ===== -/

/-- `DEFAULT_HOTKEY_SHORTCUT` from `src/settingsUtils.ts`. -/
def DEFAULT_HOTKEY_SHORTCUT : List Char := "Alt+Space".data

/-- `OPENAI_PROVIDER` from `src/settingsUtils.ts`. -/
def OPENAI_PROVIDER : List Char := "openai".data

/-- The `RecordingMode` string union from `src/settingsUtils.ts` line 4:
`"hold_to_talk" | "toggle"`. -/
inductive RecordingMode where
  | hold_to_talk
  | toggle
deriving DecidableEq

/-- The string carried by a `RecordingMode` value. -/
def RecordingMode.str : RecordingMode → List Char
  | RecordingMode.hold_to_talk => "hold_to_talk".data
  | RecordingMode.toggle => "toggle".data

/-- `normalizeRecordingMode` from `src/settingsUtils.ts` lines 35-37:
`value === "toggle" ? "toggle" : "hold_to_talk"`. -/
def normalizeRecordingMode (value : List Char) : RecordingMode :=
  if value = "toggle".data then RecordingMode.toggle else RecordingMode.hold_to_talk

/-- `normalizeShortcut` from `src/settingsUtils.ts`. -/
def normalizeShortcut (shortcut : List Char) : List Char :=
  let trimmed := jsTrim shortcut
  if 0 < trimmed.length then trimmed else DEFAULT_HOTKEY_SHORTCUT

/-- `normalizeOptionalText` from `src/settingsUtils.ts`. -/
def normalizeOptionalText (value : List Char) : Option (List Char) :=
  let trimmed := jsTrim value
  if 0 < trimmed.length then some trimmed else none

/-- The `SettingsUpdateInput` record from `src/settingsUtils.ts`. -/
structure SettingsUpdateInput where
  hotkeyShortcut : List Char
  recordingMode : RecordingMode
  microphoneId : List Char
  language : List Char
  autoInsert : Bool
  launchAtLogin : Bool

/-- The `VoiceSettingsUpdatePayload` record from `src/settingsUtils.ts`. -/
structure VoiceSettingsUpdatePayload where
  hotkey_shortcut : List Char
  recording_mode : RecordingMode
  microphone_id : Option (List Char)
  language : Option (List Char)
  transcription_provider : List Char
  auto_insert : Bool
  launch_at_login : Bool

/-- `createSettingsUpdatePayload` from `src/settingsUtils.ts` lines 39-51. -/
def createSettingsUpdatePayload (input : SettingsUpdateInput) : VoiceSettingsUpdatePayload :=
  { hotkey_shortcut := normalizeShortcut input.hotkeyShortcut
    recording_mode := input.recordingMode
    microphone_id := normalizeOptionalText input.microphoneId
    language := normalizeOptionalText input.language
    transcription_provider := OPENAI_PROVIDER
    auto_insert := input.autoInsert
    launch_at_login := input.launchAtLogin }

/-- `maskApiKey` from `src/settingsUtils.ts` lines 53-61: empty for an
all-whitespace key, otherwise `Math.max(8, Math.min(24, length))` bullet
characters. -/
def maskApiKey (key : List Char) : List Char :=
  let trimmed := jsTrim key
  if trimmed = [] then []
  else List.replicate (max 8 (min 24 trimmed.length)) '•'

/- ===== src/overlayUtils.ts ===== -/

/-- `clampAudioLevel` from `src/overlayUtils.ts` lines 1-7: `0` for a
non-finite input, otherwise `Math.max(0, Math.min(1, value))`. -/
def clampAudioLevel : JsNum → ℚ
  | JsNum.num q => max 0 (min 1 q)
  | _ => 0

/-- JS `array.slice(-k)` for a non-negative `k`: the last `k` elements —
except that `k = 0` yields the whole array, because JS `-0 === 0` and
`slice(0)` copies the array.  `pushAudioLevelHistory` reaches the `k = 0`
case when its bounded length is 1. -/
def jsSliceNegFrom (l : List ℚ) (k : Nat) : List ℚ :=
  if k = 0 then l else l.drop (l.length - k)

/-- The `while (next.length < boundedLength) next.unshift(0)` padding loop
of `pushAudioLevelHistory`. -/
def padToLength (target : Nat) (l : List ℚ) : List ℚ :=
  List.replicate (target - l.length) 0 ++ l

/-- `pushAudioLevelHistory` from `src/overlayUtils.ts` lines 9-24. -/
def pushAudioLevelHistory (history : List ℚ) (value : JsNum) (maxLength : ℚ) : List ℚ :=
  let boundedLength : ℤ := max 1 (Rat.floor maxLength)
  let normalized := clampAudioLevel value
  padToLength boundedLength.toNat
    (jsSliceNegFrom history (boundedLength - 1).toNat ++ [normalized])

/- ===== src/App.tsx ===== -/

/-- The `AppStatus` string union from `src/App.tsx` line 32. -/
inductive AppStatus where
  | idle
  | listening
  | transcribing
  | error
deriving DecidableEq

/-- The clamp in the `audio-level` listener of `src/App.tsx`:
`Math.max(0, Math.min(1, Number(payload) || 0))`.  `NaN || 0` yields `0`;
the infinities pass `||` unchanged and are then clamped to `1` and `0`. -/
def normalizedLevel : JsNum → ℚ
  | JsNum.num q => max 0 (min 1 q)
  | JsNum.posInf => 1
  | JsNum.negInf => 0
  | JsNum.nan => 0

/-- `Math.round(x * 100) / 100` for the non-negative clamped levels:
JS `Math.round` rounds half towards positive infinity, i.e. `⌊x + 1/2⌋`. -/
def quantizeLevel (x : ℚ) : ℚ := (Rat.floor (100 * x + 1/2) : ℚ) / 100

/-- The `audio-level` listener from `src/App.tsx` lines 458-465, written as
the update function of the stored audio level: gate non-zero levels outside
`listening`, quantize to whole percent, keep the previous value when the
quantized level moved by less than one percent. -/
def handleAudioLevel (status : AppStatus) (previous : ℚ) (payload : JsNum) : ℚ :=
  let normalized := normalizedLevel payload
  if status ≠ AppStatus.listening ∧ 0 < normalized then previous
  else
    let quantized := quantizeLevel normalized
    if |previous - quantized| < 1/100 then previous else quantized

/- ===== src-tauri (modelled from the spec; the Rust tree is not under src/) ===== -/

/-- Modelled from the spec: realtime websocket endpoint handling of
`src-tauri/src/transcription/realtime.rs`, which is missing from the source
tree.  Per `src/unnamed/part_001` ("Always enforce `intent=transcription`";
"Strip `model` query parameter from websocket URL") and spec §4.3 step 1,
the configured endpoint's query string is rewritten by removing every
`model` parameter and any stale `intent` parameter and appending
`intent=transcription`. -/
def buildRealtimeQuery (query : List (String × String)) : List (String × String) :=
  query.filter (fun p => p.1 != "model" && p.1 != "intent") ++ [("intent", "transcription")]

/-- Modelled from the spec: the inbound protocol events of the realtime
transcription session after streaming starts (spec §4.3 step 5, §6 wire
protocol; the protocol client `src-tauri/src/transcription/realtime.rs` is
missing from the source tree). -/
inductive RtEvent where
  | committed
  | itemCreated
  | completed (transcript : List Char)
  | failed (message : List Char)
deriving DecidableEq

/-- Terminal events of a realtime session: transcription-completed and
transcription-failed. -/
def isTerminalEvent : RtEvent → Bool
  | RtEvent.completed _ => true
  | RtEvent.failed _ => true
  | _ => false

/-- Modelled from the spec: final result handling of the realtime session
(`src-tauri/src/transcription/realtime.rs`, missing from the source tree;
`src/unnamed/part_001` items 4-5: "Accepts empty completed transcripts
(e.g. `\x22\x22`) as valid completion events", "If `completed` event
arrives, returns transcript even when empty. Still errors if no
completion/delta transcript is ever received.").  Inbound events are
scanned in order: the first completed event resolves the session with its
transcript, a failed event resolves to an error, and a stream that ends
with neither is an error. -/
def resolveSessionResult : List RtEvent → Except (List Char) (List Char)
  | [] => Except.error "no transcript received".data
  | RtEvent.completed t :: _ => Except.ok t
  | RtEvent.failed m :: _ => Except.error m
  | _ :: rest => resolveSessionResult rest

/-- The `PipelineState` enum of spec §3. -/
inductive PipelineState where
  | idle
  | listening
  | transcribing
  | error (message : List Char)
deriving DecidableEq

/-- The `Transcript` record of spec §3: text (may be empty), duration,
optional language, provider identifier. -/
structure Transcript where
  text : List Char
  durationSecs : ℚ
  languageCode : Option (List Char)
  provider : List Char
deriving DecidableEq

/-- Modelled from the spec: how the pipeline controller turns the session
result into its post-transcription state (spec §3, §4.4; the controller
`src-tauri/src/voice_pipeline/mod.rs` is missing from the source tree): a
successful result — empty text included — produces a `Transcript` and
returns the pipeline to idle; an error moves the pipeline to the error
state with the failure message and produces no transcript. -/
def pipelineOutcome (events : List RtEvent) (durationSecs : ℚ) :
    PipelineState × Option Transcript :=
  match resolveSessionResult events with
  | Except.ok t => (PipelineState.idle, some ⟨t, durationSecs, none, "openai".data⟩)
  | Except.error m => (PipelineState.error m, none)

/-- Observable actions of the pipeline controller's stop path. -/
inductive StopAction where
  | insertTranscript
  | warnInsertionFailed
  | emitTranscriptReady
deriving DecidableEq

/-- Modelled from the spec: the stop path of the pipeline controller
(`src-tauri/src/voice_pipeline/mod.rs`, missing from the source tree;
PERF_TUNING.md: "The insertion call is made before transcript event
emission, while still preserving transcript emission even when insertion
fails", spec §4.4): on a transcription result the controller first attempts
text-insertion, reports an insertion failure only as a secondary warning,
and then always emits the transcript-ready notification. -/
def stopPathActions (insertionSucceeded : Bool) : List StopAction :=
  StopAction.insertTranscript ::
    ((if insertionSucceeded then [] else [StopAction.warnInsertionFailed]) ++
      [StopAction.emitTranscriptReady])

/-- Little-endian byte pair of an unsigned 16-bit value. -/
def u16le (n : ℕ) : List ℕ := [n % 256, n / 256 % 256]

/-- Little-endian byte quadruple of an unsigned 32-bit value. -/
def u32le (n : ℕ) : List ℕ :=
  [n % 256, n / 256 % 256, n / 65536 % 256, n / 16777216 % 256]

/-- Two's-complement little-endian encoding of one 16-bit PCM sample. -/
def pcm16le (s : ℤ) : List ℕ := u16le (s % 65536).toNat

/-- PCM16 payload: every sample as two little-endian bytes. -/
def encodePcm16 : List ℤ → List ℕ
  | [] => []
  | s :: rest => pcm16le s ++ encodePcm16 rest

/-- Decode a little-endian PCM16 byte stream back into samples (two's
complement); a trailing odd byte is ignored. -/
def decodePcm16 : List ℕ → List ℤ
  | b0 :: b1 :: rest =>
      (if b0 + 256 * b1 < 32768 then ((b0 + 256 * b1 : ℕ) : ℤ)
       else ((b0 + 256 * b1 : ℕ) : ℤ) - 65536) :: decodePcm16 rest
  | _ => []

/-- Modelled from the spec: the recording buffer of the audio capture
service (`src-tauri/src/audio_capture_service/mod.rs`, missing from the
source tree; spec §2/§4.2): accumulated PCM16 samples plus the session's
sample rate and channel count. -/
structure RecordingBuffer where
  sampleRateHz : ℕ
  channelCount : ℕ
  samples : List ℤ
deriving DecidableEq

/-- Modelled from the spec: `append(frame)` of the recording buffer (spec
§4.2) — the frame's samples are appended to the accumulated buffer. -/
def RecordingBuffer.append (buf : RecordingBuffer) (frame : List ℤ) : RecordingBuffer :=
  { buf with samples := buf.samples ++ frame }

/-- A fresh recording buffer for one capture session. -/
def emptyRecordingBuffer (sampleRateHz channelCount : ℕ) : RecordingBuffer :=
  ⟨sampleRateHz, channelCount, []⟩

/-- The fixed 40 bytes of WAV header before the data-chunk size field:
RIFF magic, RIFF chunk size, WAVE magic, fmt chunk (PCM, channel count,
sample rate, byte rate, block align, 16 bits per sample), and the data
magic. -/
def wavPreamble (buf : RecordingBuffer) : List ℕ :=
  [82, 73, 70, 70] ++ u32le (36 + 2 * buf.samples.length) ++ [87, 65, 86, 69]
    ++ [102, 109, 116, 32] ++ u32le 16 ++ u16le 1 ++ u16le buf.channelCount
    ++ u32le buf.sampleRateHz ++ u32le (buf.sampleRateHz * buf.channelCount * 2)
    ++ u16le (buf.channelCount * 2) ++ u16le 16 ++ [100, 97, 116, 97]

/-- Modelled from the spec: `toWav()` of the recording buffer
(`src-tauri/src/audio_capture_service/mod.rs`, missing from the source
tree; spec §4.2: "produces a standard little-endian PCM WAV container with
correct header sizes computed from the accumulated sample count",
PERF_TUNING.md: samples appended as bulk little-endian bytes): the 44-byte
canonical header followed by the PCM16 payload. -/
def RecordingBuffer.toWav (buf : RecordingBuffer) : List ℕ :=
  wavPreamble buf ++ u32le (2 * buf.samples.length) ++ encodePcm16 buf.samples

/-- Read a little-endian unsigned 32-bit value from the head of a byte
stream. -/
def readU32le : List ℕ → ℕ
  | b0 :: b1 :: b2 :: b3 :: _ => b0 + 256 * b1 + 65536 * b2 + 16777216 * b3
  | _ => 0

/- ===== Theorems ===== -/

/-- Elements taken by `jsSliceNegFrom` come from the original list. -/
theorem jsSliceNegFrom_subset (l : List ℚ) (k : Nat) : jsSliceNegFrom l k ⊆ l := by
  unfold jsSliceNegFrom
  split
  · exact fun x hx => hx
  · exact List.drop_subset _ _

/-- Claim C4 (counterexample): `normalizeRecordingMode` as defined in
`src/settingsUtils.ts` lines 35-37 does not preserve `"double_tap_toggle"`;
it maps it to `"hold_to_talk"`. -/
theorem normalizeRecordingMode_drops_double_tap :
    (normalizeRecordingMode "double_tap_toggle".data).str ≠ "double_tap_toggle".data := by
  decide

/-- Claim C4 (amended): `normalizeRecordingMode` preserves `"hold_to_talk"`
and `"toggle"`, and maps every other string — in particular
`"double_tap_toggle"` — to `hold_to_talk`. -/
theorem normalizeRecordingMode_amended :
    (normalizeRecordingMode "hold_to_talk".data).str = "hold_to_talk".data
    ∧ (normalizeRecordingMode "toggle".data).str = "toggle".data
    ∧ normalizeRecordingMode "double_tap_toggle".data = RecordingMode.hold_to_talk
    ∧ ∀ value : List Char, value ≠ "toggle".data →
        normalizeRecordingMode value = RecordingMode.hold_to_talk := by
  refine ⟨by decide, by decide, by decide, ?_⟩
  intro value hv
  unfold normalizeRecordingMode
  rw [if_neg hv]

/-- Concrete instance of the amended claim C4. -/
theorem normalizeRecordingMode_amended_witness :
    normalizeRecordingMode "anything-else".data = RecordingMode.hold_to_talk :=
  normalizeRecordingMode_amended.2.2.2 "anything-else".data (by decide)

/-- Claim C9: `createSettingsUpdatePayload` always sets the provider to
`"openai"`, uses the trimmed shortcut or the `"Alt+Space"` default when the
trimmed shortcut is empty, and sends `microphone_id`/`language` as the
trimmed strings, `null` exactly when trimming yields the empty string. -/
theorem createSettingsUpdatePayload_spec (input : SettingsUpdateInput) :
    (createSettingsUpdatePayload input).transcription_provider = "openai".data
    ∧ (jsTrim input.hotkeyShortcut ≠ [] →
        (createSettingsUpdatePayload input).hotkey_shortcut = jsTrim input.hotkeyShortcut)
    ∧ (jsTrim input.hotkeyShortcut = [] →
        (createSettingsUpdatePayload input).hotkey_shortcut = "Alt+Space".data)
    ∧ ((createSettingsUpdatePayload input).microphone_id = none ↔ jsTrim input.microphoneId = [])
    ∧ (jsTrim input.microphoneId ≠ [] →
        (createSettingsUpdatePayload input).microphone_id = some (jsTrim input.microphoneId))
    ∧ ((createSettingsUpdatePayload input).language = none ↔ jsTrim input.language = [])
    ∧ (jsTrim input.language ≠ [] →
        (createSettingsUpdatePayload input).language = some (jsTrim input.language)) := by
  unfold createSettingsUpdatePayload normalizeShortcut normalizeOptionalText
  simp only [List.length_pos]
  refine ⟨rfl, ?_, ?_, ?_, ?_, ?_, ?_⟩
  · intro h; simp [h]
  · intro h; simp [h, DEFAULT_HOTKEY_SHORTCUT]
  · by_cases h : jsTrim input.microphoneId = [] <;> simp [h]
  · intro h; simp [h]
  · by_cases h : jsTrim input.language = [] <;> simp [h]
  · intro h; simp [h]

/-- Concrete instance of claim C9: blank shortcut falls back to the default,
and a padded microphone id is trimmed. -/
theorem createSettingsUpdatePayload_spec_witness :
    (createSettingsUpdatePayload
        ⟨"  ".data, RecordingMode.toggle, " mic-1 ".data, "   ".data, false, true⟩).hotkey_shortcut
      = "Alt+Space".data
    ∧ (createSettingsUpdatePayload
        ⟨"  ".data, RecordingMode.toggle, " mic-1 ".data, "   ".data, false, true⟩).microphone_id
      = some "mic-1".data := by
  have h := createSettingsUpdatePayload_spec
    ⟨"  ".data, RecordingMode.toggle, " mic-1 ".data, "   ".data, false, true⟩
  refine ⟨h.2.2.1 (by decide), ?_⟩
  rw [h.2.2.2.2.1 (by decide)]
  decide

/-- Claim C10: `maskApiKey` reveals only the trimmed length of the key —
keys with equally long trimmed forms mask identically, a non-blank key masks
to `min(24, max(8, length))` bullets, and the mask is empty exactly when the
trimmed key is empty. -/
theorem maskApiKey_hides_content (k1 k2 k : List Char) :
    ((jsTrim k1).length = (jsTrim k2).length → maskApiKey k1 = maskApiKey k2)
    ∧ (maskApiKey k = [] ↔ jsTrim k = [])
    ∧ (jsTrim k ≠ [] →
        maskApiKey k = List.replicate (min 24 (max 8 (jsTrim k).length)) '•') := by
  refine ⟨?_, ?_, ?_⟩
  · intro hlen
    unfold maskApiKey
    by_cases h1 : jsTrim k1 = []
    · have h2 : jsTrim k2 = [] := by
        rw [← List.length_eq_zero, ← hlen, h1]
        rfl
      simp [h1, h2]
    · have h2 : jsTrim k2 ≠ [] := by
        intro h2
        rw [h2] at hlen
        exact h1 (List.length_eq_zero.mp hlen)
      simp [h1, h2, hlen]
  · unfold maskApiKey
    by_cases h : jsTrim k = []
    · simp [h]
    · simp only [h, if_neg h, iff_false]
      intro hrep
      have h0 := (List.replicate_eq_nil_iff '•').mp hrep
      omega
  · intro h
    unfold maskApiKey
    rw [if_neg h]
    have : max 8 (min 24 (jsTrim k).length) = min 24 (max 8 (jsTrim k).length) := by omega
    rw [this]

/-- Concrete instance of claim C10: two distinct keys of trimmed length two
mask identically, and a three-character key masks to eight bullets. -/
theorem maskApiKey_hides_content_witness :
    maskApiKey "ab".data = maskApiKey "xy".data
    ∧ maskApiKey "key".data
        = List.replicate (min 24 (max 8 (jsTrim "key".data).length)) '•' :=
  ⟨(maskApiKey_hides_content "ab".data "xy".data []).1 (by decide),
   (maskApiKey_hides_content [] [] "key".data).2.2 (by decide)⟩

/-- Claim C8 (counterexample): with `maxLength = 1` and a non-empty history,
`pushAudioLevelHistory` returns a list of length 2, not the claimed
`max(1, floor(maxLength)) = 1` — `history.slice(-(boundedLength - 1))` is
`slice(-0)`, which returns the whole history instead of dropping it. -/
theorem pushAudioLevelHistory_length_counterexample :
    (pushAudioLevelHistory [0] (JsNum.num (1/2)) 1).length = 2
    ∧ (max 1 (Rat.floor (1 : ℚ))).toNat = 1 := by
  constructor
  · rfl
  · rfl

/-- Claim C8 (amended): `pushAudioLevelHistory` keeps all elements in
`[0, 1]` and ends with `clampAudioLevel value`; its length is exactly
`max(1, floor(maxLength))` whenever `floor(maxLength) ≥ 2` or the input
history is empty (when the bounded length is 1 and the history is non-empty,
the JS `slice(-0)` edge case keeps the whole history, so the result is one
longer than it).  `clampAudioLevel` returns `0` on every non-finite input
and `min(1, max(0, v))` on every finite `v`. -/
theorem pushAudioLevelHistory_amended (history : List ℚ) (value : JsNum) (maxLength : ℚ)
    (hin : ∀ x ∈ history, 0 ≤ x ∧ x ≤ 1) :
    ((2 ≤ Rat.floor maxLength ∨ history = []) →
      (pushAudioLevelHistory history value maxLength).length
        = (max 1 (Rat.floor maxLength)).toNat)
    ∧ (∀ x ∈ pushAudioLevelHistory history value maxLength, 0 ≤ x ∧ x ≤ 1)
    ∧ (pushAudioLevelHistory history value maxLength).getLast?
        = some (clampAudioLevel value)
    ∧ (∀ q : ℚ, clampAudioLevel (JsNum.num q) = min 1 (max 0 q))
    ∧ clampAudioLevel JsNum.nan = 0
    ∧ clampAudioLevel JsNum.posInf = 0
    ∧ clampAudioLevel JsNum.negInf = 0 := by
  have hclamp : 0 ≤ clampAudioLevel value ∧ clampAudioLevel value ≤ 1 := by
    cases value with
    | num q =>
        exact ⟨le_max_left _ _, max_le (by norm_num) (min_le_left _ _)⟩
    | nan => exact ⟨le_refl 0, by norm_num [clampAudioLevel]⟩
    | posInf => exact ⟨le_refl 0, by norm_num [clampAudioLevel]⟩
    | negInf => exact ⟨le_refl 0, by norm_num [clampAudioLevel]⟩
  refine ⟨?_, ?_, ?_, ?_, rfl, rfl, rfl⟩
  · intro hcase
    rcases hcase with hge | hnil
    · simp only [pushAudioLevelHistory, padToLength, jsSliceNegFrom]
      split
      · rename_i hzero
        simp only [List.length_append, List.length_replicate, List.length_cons,
          List.length_nil]
        generalize Rat.floor maxLength = f at *
        omega
      · simp only [List.length_append, List.length_replicate, List.length_drop,
          List.length_cons, List.length_nil]
        generalize Rat.floor maxLength = f at *
        omega
    · subst hnil
      simp only [pushAudioLevelHistory, padToLength, jsSliceNegFrom]
      split <;>
        simp only [List.drop_nil, List.length_append, List.length_replicate,
          List.length_cons, List.length_nil] <;>
        omega
  · intro x hx
    simp only [pushAudioLevelHistory, padToLength, List.mem_append] at hx
    rcases hx with hx | hx | hx
    · rw [List.eq_of_mem_replicate hx]
      norm_num
    · exact hin x (jsSliceNegFrom_subset _ _ hx)
    · rw [List.mem_singleton.mp hx]
      exact hclamp
  · simp only [pushAudioLevelHistory, padToLength, ← List.append_assoc]
    exact List.getLast?_concat _
  · intro q
    simp only [clampAudioLevel]
    rw [max_min_distrib_left]
    norm_num

/-- Concrete instance of the amended claim C8: an empty history padded to
length 3 with an over-range sample clamped to 1. -/
theorem pushAudioLevelHistory_amended_witness :
    (pushAudioLevelHistory [] (JsNum.num 2) 3).length
      = (max 1 (Rat.floor (3 : ℚ))).toNat
    ∧ (pushAudioLevelHistory [] (JsNum.num 2) 3).getLast?
        = some (clampAudioLevel (JsNum.num 2)) :=
  ⟨(pushAudioLevelHistory_amended [] (JsNum.num 2) 3 (by simp)).1 (Or.inr rfl),
   (pushAudioLevelHistory_amended [] (JsNum.num 2) 3 (by simp)).2.2.1⟩

/-- Claim C3: the `audio-level` listener clamps the payload into `[0, 1]`,
stores only whole-percent multiples (or keeps the previous value), keeps the
previous value whenever the quantized level moved by less than one percent,
and ignores every non-zero level while the status is not `listening`. -/
theorem audio_level_handler_spec (status : AppStatus) (previous : ℚ) (payload : JsNum) :
    (0 ≤ normalizedLevel payload ∧ normalizedLevel payload ≤ 1)
    ∧ (handleAudioLevel status previous payload = previous
        ∨ ∃ k : ℤ, handleAudioLevel status previous payload = (k : ℚ) / 100)
    ∧ (|previous - quantizeLevel (normalizedLevel payload)| < 1/100 →
        handleAudioLevel status previous payload = previous)
    ∧ (status ≠ AppStatus.listening → 0 < normalizedLevel payload →
        handleAudioLevel status previous payload = previous) := by
  have hgate : handleAudioLevel status previous payload =
      if status ≠ AppStatus.listening ∧ 0 < normalizedLevel payload then previous
      else if |previous - quantizeLevel (normalizedLevel payload)| < 1/100 then previous
      else quantizeLevel (normalizedLevel payload) := rfl
  refine ⟨?_, ?_, ?_, ?_⟩
  · cases payload with
    | num q => exact ⟨le_max_left _ _, max_le (by norm_num) (min_le_left _ _)⟩
    | nan => exact ⟨le_refl 0, by norm_num [normalizedLevel]⟩
    | posInf => exact ⟨by norm_num [normalizedLevel], le_refl 1⟩
    | negInf => exact ⟨le_refl 0, by norm_num [normalizedLevel]⟩
  · by_cases h1 : status ≠ AppStatus.listening ∧ 0 < normalizedLevel payload
    · left
      rw [hgate, if_pos h1]
    · by_cases h2 : |previous - quantizeLevel (normalizedLevel payload)| < 1/100
      · left
        rw [hgate, if_neg h1, if_pos h2]
      · right
        refine ⟨Rat.floor (100 * normalizedLevel payload + 1/2), ?_⟩
        rw [hgate, if_neg h1, if_neg h2]
        rfl
  · intro h2
    by_cases h1 : status ≠ AppStatus.listening ∧ 0 < normalizedLevel payload
    · rw [hgate, if_pos h1]
    · rw [hgate, if_neg h1, if_pos h2]
  · intro hs hn
    rw [hgate, if_pos ⟨hs, hn⟩]

/-- Concrete instance of claim C3: a positive mid-range level arriving while
idle is ignored, and a level one whole percent away from the previous value
is kept unchanged when it quantizes to the same percent. -/
theorem audio_level_handler_spec_witness :
    handleAudioLevel AppStatus.idle 0 (JsNum.num (1/2)) = 0
    ∧ handleAudioLevel AppStatus.listening (1/2) (JsNum.num (1/2)) = 1/2 := by
  have hn : normalizedLevel (JsNum.num (1/2)) = 1/2 := by
    show max 0 (min 1 (1/2 : ℚ)) = 1/2
    rw [min_eq_right (by norm_num : (1/2 : ℚ) ≤ 1),
      max_eq_right (by norm_num : (0 : ℚ) ≤ 1/2)]
  have hq : quantizeLevel (1/2 : ℚ) = 1/2 := by
    unfold quantizeLevel
    have h : Rat.floor (100 * (1/2 : ℚ) + 1/2) = ⌊(100 * (1/2 : ℚ) + 1/2)⌋ := rfl
    rw [h]
    norm_num
  refine ⟨?_, ?_⟩
  · exact (audio_level_handler_spec AppStatus.idle 0 (JsNum.num (1/2))).2.2.2
      (by decide) (by rw [hn]; norm_num)
  · refine (audio_level_handler_spec AppStatus.listening (1/2) (JsNum.num (1/2))).2.2.1 ?_
    rw [hn, hq]
    simp only [sub_self, abs_zero]
    norm_num

/-- Claim C1: the realtime connection query always carries
`intent=transcription` and never carries a `model` parameter, whatever the
configured endpoint's query contained. -/
theorem realtime_query_intent_no_model (query : List (String × String)) :
    ("intent", "transcription") ∈ buildRealtimeQuery query
    ∧ ∀ p ∈ buildRealtimeQuery query, p.1 ≠ "model" := by
  constructor
  · exact List.mem_append_right _ (List.mem_singleton.mpr rfl)
  · intro p hp
    rcases List.mem_append.mp hp with hp | hp
    · have hfilter := List.of_mem_filter hp
      have h1 := (Bool.and_eq_true _ _).mp hfilter
      exact bne_iff_ne.mp h1.1
    · rw [List.mem_singleton.mp hp]
      decide

/-- Concrete instance of claim C1: a configured endpoint carrying a `model`
parameter still yields a query with the transcription intent, and the
intent pair itself is not a `model` parameter. -/
theorem realtime_query_intent_no_model_witness :
    ("intent", "transcription") ∈ buildRealtimeQuery [("model", "gpt-4o")]
    ∧ ("intent", "transcription").1 ≠ "model" :=
  ⟨(realtime_query_intent_no_model [("model", "gpt-4o")]).1,
   (realtime_query_intent_no_model [("model", "gpt-4o")]).2 ("intent", "transcription")
      (by decide)⟩

/-- A run of non-terminal events followed by a completed event resolves to
that event's transcript. -/
theorem resolveSessionResult_of_nonterminal (t : List Char) :
    ∀ mid : List RtEvent, mid.all (fun e => !isTerminalEvent e) = true →
      resolveSessionResult (mid ++ [RtEvent.completed t]) = Except.ok t := by
  intro mid
  induction mid with
  | nil => intro _; rfl
  | cons e rest ih =>
      intro hall
      rw [List.all_cons, Bool.and_eq_true] at hall
      cases e with
      | committed => exact ih hall.2
      | itemCreated => exact ih hall.2
      | completed s => simp [isTerminalEvent] at hall
      | failed s => simp [isTerminalEvent] at hall

/-- Claim C2: after a commit acknowledgement, any run of non-terminal
protocol events followed by a transcription-completed event whose
transcript is empty resolves the session successfully with empty text, and
the pipeline returns to idle with a Transcript whose text is empty rather
than entering the error state. -/
theorem empty_transcript_is_success (mid : List RtEvent) (d : ℚ)
    (hmid : mid.all (fun e => !isTerminalEvent e) = true) :
    resolveSessionResult (RtEvent.committed :: (mid ++ [RtEvent.completed []]))
        = Except.ok []
    ∧ (pipelineOutcome (RtEvent.committed :: (mid ++ [RtEvent.completed []])) d).1
        = PipelineState.idle
    ∧ ∃ tr : Transcript,
        (pipelineOutcome (RtEvent.committed :: (mid ++ [RtEvent.completed []])) d).2
            = some tr
        ∧ tr.text = [] := by
  have hres : resolveSessionResult (RtEvent.committed :: (mid ++ [RtEvent.completed []]))
      = Except.ok [] := by
    show resolveSessionResult (mid ++ [RtEvent.completed []]) = Except.ok []
    exact resolveSessionResult_of_nonterminal [] mid hmid
  refine ⟨hres, ?_, ?_⟩
  · simp [pipelineOutcome, hres]
  · exact ⟨⟨[], d, none, "openai".data⟩, by simp [pipelineOutcome, hres], rfl⟩

/-- Concrete instance of claim C2: committed, then item-created, then
completed with the empty transcript. -/
theorem empty_transcript_is_success_witness :
    resolveSessionResult
        (RtEvent.committed :: ([RtEvent.itemCreated] ++ [RtEvent.completed []]))
      = Except.ok [] :=
  (empty_transcript_is_success [RtEvent.itemCreated] 0 (by decide)).1

/-- Claim C5: on a transcription result the stop path always contains the
transcript-ready emission — whether insertion succeeded or not — it begins
with the insertion attempt, and every insertion attempt comes strictly
before every transcript-ready emission. -/
theorem stop_path_insert_before_emit (insertionSucceeded : Bool) :
    StopAction.emitTranscriptReady ∈ stopPathActions insertionSucceeded
    ∧ (stopPathActions insertionSucceeded).head? = some StopAction.insertTranscript
    ∧ ∀ i j : ℕ,
        (stopPathActions insertionSucceeded).get? i = some StopAction.insertTranscript →
        (stopPathActions insertionSucceeded).get? j = some StopAction.emitTranscriptReady →
        i < j := by
  cases insertionSucceeded <;>
    refine ⟨by decide, by decide, ?_⟩ <;>
    · intro i j hi hj
      rcases i with _ | _ | _ | i <;> rcases j with _ | _ | _ | j <;>
        simp_all [stopPathActions]

/-- Concrete instance of claim C5: with a failing insertion, transcript-ready
is still emitted and the insertion attempt at index 0 precedes the emission
at index 2. -/
theorem stop_path_insert_before_emit_witness :
    StopAction.emitTranscriptReady ∈ stopPathActions false ∧ (0 : ℕ) < 2 :=
  ⟨(stop_path_insert_before_emit false).1,
   (stop_path_insert_before_emit false).2.2 0 2 (by decide) (by decide)⟩

/-- Folding frames into a recording buffer concatenates their samples. -/
theorem foldl_append_samples (frames : List (List ℤ)) (buf : RecordingBuffer) :
    (frames.foldl RecordingBuffer.append buf).samples = buf.samples ++ frames.flatten := by
  induction frames generalizing buf with
  | nil => simp
  | cons f rest ih =>
      show (rest.foldl RecordingBuffer.append (buf.append f)).samples = _
      rw [ih, RecordingBuffer.append]
      simp [List.append_assoc]

/-- The PCM16 payload has two bytes per sample. -/
theorem encodePcm16_length (l : List ℤ) : (encodePcm16 l).length = 2 * l.length := by
  induction l with
  | nil => rfl
  | cons s rest ih =>
      show (pcm16le s ++ encodePcm16 rest).length = 2 * (rest.length + 1)
      simp only [List.length_append, pcm16le, u16le, List.length_cons, List.length_nil, ih]
      omega

/-- Decoding the PCM16 payload recovers one sample per encoded sample. -/
theorem decodePcm16_encodePcm16_length (l : List ℤ) :
    (decodePcm16 (encodePcm16 l)).length = l.length := by
  induction l with
  | nil => rfl
  | cons s rest ih =>
      show (decodePcm16 ((s % 65536).toNat % 256
          :: ((s % 65536).toNat / 256 % 256) :: encodePcm16 rest)).length
        = rest.length + 1
      simp only [decodePcm16, List.length_cons, ih]

/-- The WAV preamble before the data-chunk size field is 40 bytes. -/
theorem wavPreamble_length (buf : RecordingBuffer) : (wavPreamble buf).length = 40 := by
  simp [wavPreamble, u32le, u16le]

/-- A little-endian 32-bit field is 4 bytes. -/
theorem u32le_length (n : ℕ) : (u32le n).length = 4 := by
  simp [u32le]

/-- Reading back a little-endian 32-bit field recovers the value modulo
two to the 32. -/
theorem readU32le_u32le (n : ℕ) (rest : List ℕ) :
    readU32le (u32le n ++ rest) = n % 4294967296 := by
  simp only [u32le, List.cons_append, List.nil_append, readU32le]
  omega

/-- The serialized WAV is the 44-byte header followed by the payload. -/
theorem toWav_drop_forty (buf : RecordingBuffer) :
    buf.toWav.drop 40 = u32le (2 * buf.samples.length) ++ encodePcm16 buf.samples := by
  unfold RecordingBuffer.toWav
  rw [← wavPreamble_length buf]
  exact List.drop_left _ _

/-- Dropping the whole 44-byte header leaves exactly the PCM16 payload. -/
theorem toWav_drop_fortyfour (buf : RecordingBuffer) :
    buf.toWav.drop 44 = encodePcm16 buf.samples := by
  have h : buf.toWav.drop 44 = (buf.toWav.drop 40).drop 4 := by
    rw [List.drop_drop]
  rw [h, toWav_drop_forty, ← u32le_length (2 * buf.samples.length)]
  exact List.drop_left _ _

/-- The RIFF chunk-size field at offset 4 reads back as 36 plus the data
size, modulo two to the 32. -/
theorem toWav_chunkSize (buf : RecordingBuffer) :
    readU32le (buf.toWav.drop 4) = (36 + 2 * buf.samples.length) % 4294967296 := by
  have hassoc : buf.toWav
      = ([82, 73, 70, 70] : List ℕ)
        ++ (u32le (36 + 2 * buf.samples.length)
          ++ ([87, 65, 86, 69]
            ++ ([102, 109, 116, 32]
              ++ (u32le 16
                ++ (u16le 1
                  ++ (u16le buf.channelCount
                    ++ (u32le buf.sampleRateHz
                      ++ (u32le (buf.sampleRateHz * buf.channelCount * 2)
                        ++ (u16le (buf.channelCount * 2)
                          ++ (u16le 16
                            ++ ([100, 97, 116, 97]
                              ++ (u32le (2 * buf.samples.length)
                                ++ encodePcm16 buf.samples)))))))))))) := by
    unfold RecordingBuffer.toWav wavPreamble
    simp only [List.append_assoc]
  rw [hassoc]
  rw [show (4 : ℕ) = ([82, 73, 70, 70] : List ℕ).length from rfl]
  rw [List.drop_left]
  exact readU32le_u32le _ _

/-- The serialized WAV is 44 header bytes plus two bytes per sample. -/
theorem toWav_length (buf : RecordingBuffer) :
    buf.toWav.length = 44 + 2 * buf.samples.length := by
  simp only [RecordingBuffer.toWav, List.length_append, wavPreamble_length,
    u32le_length, encodePcm16_length]

/-- Claim C6: for every sample rate, channel count and frame sequence,
appending the frames to the recording buffer and serializing with `toWav`
yields a container of exactly 44 header bytes plus two bytes per
accumulated sample, whose data-size and RIFF-size header fields are
computed from the accumulated sample count, and whose PCM payload decodes
back to exactly the original number of samples. -/
theorem wav_roundtrip_preserves_sample_count (sampleRateHz channelCount : ℕ)
    (frames : List (List ℤ)) :
    ((frames.foldl RecordingBuffer.append
        (emptyRecordingBuffer sampleRateHz channelCount)).toWav).length
      = 44 + 2 * (frames.map List.length).sum
    ∧ (decodePcm16 (((frames.foldl RecordingBuffer.append
        (emptyRecordingBuffer sampleRateHz channelCount)).toWav).drop 44)).length
      = (frames.map List.length).sum
    ∧ readU32le (((frames.foldl RecordingBuffer.append
        (emptyRecordingBuffer sampleRateHz channelCount)).toWav).drop 40)
      = 2 * (frames.map List.length).sum % 4294967296
    ∧ readU32le (((frames.foldl RecordingBuffer.append
        (emptyRecordingBuffer sampleRateHz channelCount)).toWav).drop 4)
      = (36 + 2 * (frames.map List.length).sum) % 4294967296 := by
  have hlen : (frames.foldl RecordingBuffer.append
      (emptyRecordingBuffer sampleRateHz channelCount)).samples.length
      = (frames.map List.length).sum := by
    rw [foldl_append_samples]
    show ([] ++ frames.flatten).length = _
    rw [List.nil_append, List.length_flatten]
  refine ⟨?_, ?_, ?_, ?_⟩
  · rw [toWav_length, hlen]
  · rw [toWav_drop_fortyfour, decodePcm16_encodePcm16_length, hlen]
  · rw [toWav_drop_forty, readU32le_u32le, hlen]
  · rw [toWav_chunkSize, hlen]
